import Mathlib

/-!
Verification of the request-governance and response-normalization core of the
lenis legal-assistance client (src/utils/gemini.ts).

The embedding models JavaScript numbers that hold timestamps/durations as `Nat`
(instants from `Date.now()`) and `Int` (differences, which can be negative in
the source), JS strings as Lean `String` over Unicode scalar values (UTF-16
code-unit effects such as surrogate pairs are outside the scope of the claims),
and exceptions as `Except` values.  The file follows the second (optimized)
variant of `gemini.ts` for the normalizer, and parameterizes the rate limiter
over the constants so that both variants (15 req/min with 4000 ms spacing, and
30 req/min with 1000 ms spacing) are covered.
-/

namespace LenisVerify

/-! ## Rate limiter (class RateLimiter) -/

/-- The tuning constants of `RateLimiter`.  Variant 1 uses 15/60000/4000,
variant 2 uses 30/60000/1000. -/
structure RLConfig where
  maxRequestsPerMinute : Nat
  timeWindow : Nat
  minInterval : Nat
deriving DecidableEq

/-- Constants of the first source variant. -/
def cfgV1 : RLConfig := ⟨15, 60000, 4000⟩

/-- Constants of the second (optimized) source variant. -/
def cfgV2 : RLConfig := ⟨30, 60000, 1000⟩

/-- Mutable state of `RateLimiter`: the `requests` array of admitted-request
timestamps and `lastRequestTime`. -/
structure RateLimiter where
  requests : List Nat
  lastRequestTime : Nat
deriving DecidableEq

/-- The state at construction: `requests = []`, `lastRequestTime = 0`. -/
def initRL : RateLimiter := ⟨[], 0⟩

/-- The filter predicate `now - time < this.timeWindow` (JS numbers, so the
subtraction is computed in `Int`). -/
def inWindow (c : RLConfig) (now r : Nat) : Bool :=
  decide ((now : Int) - (r : Int) < (c.timeWindow : Int))

/-- `this.requests.filter(time => now - time < this.timeWindow)`. -/
def pruneReqs (c : RLConfig) (now : Nat) (reqs : List Nat) : List Nat :=
  reqs.filter (inWindow c now)

/-- The boolean returned by `canMakeRequest()` at instant `now` (pure view). -/
def canMakeRequest (c : RLConfig) (s : RateLimiter) (now : Nat) : Bool :=
  if (now : Int) - (s.lastRequestTime : Int) < (c.minInterval : Int) then false
  else decide ((pruneReqs c now s.requests).length < c.maxRequestsPerMinute)

/-- `canMakeRequest()` with its effect: the method reassigns `this.requests`
to the pruned array (only when the minimum-interval gate is passed; the early
return leaves the state untouched). -/
def canMakeRequestRun (c : RLConfig) (s : RateLimiter) (now : Nat) :
    Bool × RateLimiter :=
  if (now : Int) - (s.lastRequestTime : Int) < (c.minInterval : Int) then (false, s)
  else (decide ((pruneReqs c now s.requests).length < c.maxRequestsPerMinute),
        { s with requests := pruneReqs c now s.requests })

/-- `recordRequest()`: push the current instant and update `lastRequestTime`. -/
def recordRequest (s : RateLimiter) (now : Nat) : RateLimiter :=
  ⟨s.requests ++ [now], now⟩

/-- `Math.min(...this.requests)` for a nonempty array (the source only reads it
when `requests.length >= maxRequestsPerMinute ≥ 1`). -/
def listMin : List Nat → Nat
  | [] => 0
  | x :: xs => xs.foldl Nat.min x

/-- `getTimeUntilNextRequest()`.  The result is an `Int`: the source computes
`timeWindow - (now - oldestRequest)` on unpruned data, which can be negative. -/
def getTimeUntilNextRequest (c : RLConfig) (s : RateLimiter) (now : Nat) : Int :=
  if (now : Int) - (s.lastRequestTime : Int) < (c.minInterval : Int) then
    (c.minInterval : Int) - ((now : Int) - (s.lastRequestTime : Int))
  else if c.maxRequestsPerMinute ≤ s.requests.length then
    (c.timeWindow : Int) - ((now : Int) - (listMin s.requests : Int))
  else 0

/-! ## Dispatcher (makeAPIRequestWithFallback) -/

/-- The two model handles created at module load:
`flashModel = genAI.getGenerativeModel({ model: "gemini-2.5-flash" })` and
`proModel = genAI.getGenerativeModel({ model: "gemini-2.5-flash" })`.
They are distinct objects with identical configuration. -/
inductive GModel where
  | flash
  | pro
deriving DecidableEq

/-- The model identifier each handle was constructed with (source lines 4-5:
both are "gemini-2.5-flash"). -/
def modelName : GModel → String
  | .flash => "gemini-2.5-flash"
  | .pro => "gemini-2.5-flash"

/-- Scan for an occurrence of `pat` as a contiguous sublist. -/
def infixScan (pat : List Char) : List Char → Bool
  | [] => pat.isEmpty
  | c :: cs => pat.isPrefixOf (c :: cs) || infixScan pat cs

/-- `s.includes(pat)` on JS strings. -/
def strContains (s pat : String) : Bool := infixScan pat.data s.data

/-- `error.message?.includes('429') || error.message?.includes('quota')`:
the quota-class test applied by the dispatcher. -/
def isQuotaError (m : String) : Bool := strContains m "429" || strContains m "quota"

/-- `Math.ceil(waitTime / 1000)` on an integral wait time. -/
def jsCeilDiv1000 (w : Int) : Int := -((-w) / 1000)

/-- The local rate-limit error message. -/
def rateLimitMsg (wait : Int) : String :=
  "Rate limit exceeded. Please wait " ++ toString (jsCeilDiv1000 wait) ++
    " seconds before making another request."

/-- The distinct all-backends-exhausted error message. -/
def allQuotaMsg : String :=
  "All Gemini models have exceeded their quotas. Please try again later or upgrade your plan."

/-- Outcome of the `for (const model of models)` loop body. -/
inductive LoopOut (α : Type) where
  | ok (a : α) (s : RateLimiter)
  | raise (msg : String) (s : RateLimiter)
  | exhaust (last : Option String) (s : RateLimiter)

/-- The dispatcher loop: for each model, `recordRequest()` then invoke the
request function; on a quota-class error continue with the next model, on any
other error re-raise immediately. -/
def modelLoop {α : Type} (fn : GModel → Except String α) (now : Nat) :
    List GModel → RateLimiter → Option String → LoopOut α
  | [], s, last => .exhaust last s
  | m :: ms, s, last =>
    let s1 := recordRequest s now
    match fn m with
    | .ok a => .ok a s1
    | .error e =>
      if isQuotaError e then modelLoop fn now ms s1 (some e)
      else .raise e s1
  termination_by ms => ms.length

/-- `makeAPIRequestWithFallback(requestFn, useFlashFirst)` at instant `now`,
with the rate-limiter state passed explicitly.  The request function is modeled
as a map from a model handle to a result or a thrown error message. -/
def makeAPIRequestWithFallback {α : Type} (c : RLConfig)
    (requestFn : GModel → Except String α) (useFlashFirst : Bool)
    (s : RateLimiter) (now : Nat) : Except String α × RateLimiter :=
  match canMakeRequestRun c s now with
  | (false, s1) =>
    (.error (rateLimitMsg (getTimeUntilNextRequest c s1 now)), s1)
  | (true, s1) =>
    let models := if useFlashFirst then [GModel.flash, GModel.pro]
                  else [GModel.pro, GModel.flash]
    match modelLoop requestFn now models s1 none with
    | .ok a s2 => (.ok a, s2)
    | .raise e s2 => (.error e, s2)
    | .exhaust last s2 =>
      match last with
      | some e => if isQuotaError e then (.error allQuotaMsg, s2) else (.error e, s2)
      | none => (.error "Unknown error occurred", s2)

/-! ## Disciplined admission traces and reachable states -/

/-- One admission check at instant `t`, with `recordRequest()` invoked exactly
when `canMakeRequest()` returns true; the second component logs every
recorded admission (the log is never pruned). -/
def rlStep (c : RLConfig) (p : RateLimiter × List Nat) (t : Nat) :
    RateLimiter × List Nat :=
  match canMakeRequestRun c p.1 t with
  | (true, s1) => (recordRequest s1 t, p.2 ++ [t])
  | (false, s1) => (s1, p.2)

/-- Run a sequence of admission checks (at the listed instants) from the
initial state. -/
def runTrace (c : RLConfig) (ts : List Nat) : RateLimiter × List Nat :=
  ts.foldl (rlStep c) (initRL, [])

/-- Membership of a recorded instant `r` in the trailing window-long slice
ending at instant `T`. -/
def inSlice (c : RLConfig) (T r : Nat) : Bool :=
  decide (r ≤ T) && decide ((T : Int) - (r : Int) < (c.timeWindow : Int))

/-- States of the module-scoped `rateLimiter` reachable by the program: time
only moves forward; `canMakeRequest()` may be invoked at any instant (the UI
`canSubmit` poll, the dispatcher and `sendChatMessage` pre-checks); after a
successful check the dispatcher or chat path records one admission, and the
dispatcher's fallback path records a second admission at the same instant
without an intervening check. -/
inductive ReachRL (c : RLConfig) : RateLimiter → Nat → Prop where
  | init : ReachRL c initRL 0
  | tick {s t} (h : ReachRL c s t) {t' : Nat} (ht : t ≤ t') : ReachRL c s t'
  | check {s t} (h : ReachRL c s t) : ReachRL c (canMakeRequestRun c s t).2 t
  | admitOne {s t} (h : ReachRL c s t)
      (hb : (canMakeRequestRun c s t).1 = true) :
      ReachRL c (recordRequest (canMakeRequestRun c s t).2 t) t
  | admitTwo {s t} (h : ReachRL c s t)
      (hb : (canMakeRequestRun c s t).1 = true) :
      ReachRL c (recordRequest (recordRequest (canMakeRequestRun c s t).2 t) t) t

/-- Invariant carried along a disciplined admission trace: `s` is the limiter
state, `L` the full log of recorded admissions (never pruned), `tcur` the
current instant. -/
structure RLInv (c : RLConfig) (s : RateLimiter) (L : List Nat) (tcur : Nat) : Prop where
  lastEq : s.lastRequestTime = L.getLastD 0
  bounded : ∀ r ∈ L, r ≤ tcur
  lastLe : s.lastRequestTime ≤ tcur
  filtEq : ∀ t, tcur ≤ t → L.filter (inWindow c t) = s.requests.filter (inWindow c t)
  capBound : ∀ T, (L.filter (inSlice c T)).length ≤ c.maxRequestsPerMinute
  spacing : List.Chain' (fun a b => a + c.minInterval ≤ b) L

/-- A reachable state of the variant-1 limiter: fifteen admissions spaced
exactly 4000 ms apart (instants 4000, 8000, ..., 60000). -/
def rlWitState : RateLimiter :=
  ⟨[4000, 8000, 12000, 16000, 20000, 24000, 28000, 32000, 36000, 40000,
    44000, 48000, 52000, 56000, 60000], 60000⟩

/-! ## JavaScript values and JSON.parse

JS values reachable in the normalizer are modeled by `Json`.  Numbers are
modeled as exact rationals: the claims under verification never depend on
IEEE-754 rounding, which is outside the scope of this embedding.  `undef`
models JavaScript `undefined` (the result of reading an absent property);
`JSON.parse` itself never produces it. -/

inductive Json where
  | null
  | undef
  | bool (b : Bool)
  | num (q : Rat)
  | str (s : String)
  | arr (elems : List Json)
  | obj (fields : List (String × Json))

/-- Named character constants (used instead of character literals). -/
def chTab : Char := Char.ofNat 9
def chNL : Char := Char.ofNat 10
def chVT : Char := Char.ofNat 11
def chFF : Char := Char.ofNat 12
def chCR : Char := Char.ofNat 13
def chSpace : Char := Char.ofNat 32
def chQuote : Char := Char.ofNat 34
def chHash : Char := Char.ofNat 35
def chStar : Char := Char.ofNat 42
def chPlus : Char := Char.ofNat 43
def chComma : Char := Char.ofNat 44
def chMinus : Char := Char.ofNat 45
def chDot : Char := Char.ofNat 46
def chSlash : Char := Char.ofNat 47
def chZero : Char := Char.ofNat 48
def chNine : Char := Char.ofNat 57
def chColon : Char := Char.ofNat 58
def chLBrack : Char := Char.ofNat 91
def chBackslash : Char := Char.ofNat 92
def chRBrack : Char := Char.ofNat 93
def chLBrace : Char := Char.ofNat 123
def chRBrace : Char := Char.ofNat 125

/-- JSON whitespace (space, tab, line feed, carriage return). -/
def wsJsonCh (c : Char) : Bool := c == chSpace || c == chTab || c == chNL || c == chCR

def skipWsJ (cs : List Char) : List Char := cs.dropWhile wsJsonCh

def isDigitCh (c : Char) : Bool := decide (48 ≤ c.toNat) && decide (c.toNat ≤ 57)

def hexVal (c : Char) : Option Nat :=
  if 48 ≤ c.toNat ∧ c.toNat ≤ 57 then some (c.toNat - 48)
  else if 97 ≤ c.toNat ∧ c.toNat ≤ 102 then some (c.toNat - 87)
  else if 65 ≤ c.toNat ∧ c.toNat ≤ 70 then some (c.toNat - 55)
  else none

/-- Accumulate a run of decimal digits: value, digit count, and the rest. -/
def takeDigitsAux (v cnt : Nat) : List Char → Nat × Nat × List Char
  | [] => (v, cnt, [])
  | c :: cs =>
    if isDigitCh c then takeDigitsAux (v * 10 + (c.toNat - 48)) (cnt + 1) cs
    else (v, cnt, c :: cs)

/-- Body of a JSON string literal (after the opening quote), with the escape
sequences accepted by `JSON.parse`.  A `\uXXXX` escape naming a surrogate is
approximated by `Char.ofNat`'s fallback; no claim depends on surrogates. -/
def parseStrBody (fuel : Nat) (cs : List Char) (acc : String) :
    Option (String × List Char) :=
  match fuel with
  | 0 => none
  | f + 1 =>
    match cs with
    | [] => none
    | c :: rest =>
      if c = chQuote then some (acc, rest)
      else if c = chBackslash then
        match rest with
        | [] => none
        | e :: r2 =>
          if e = chQuote then parseStrBody f r2 (acc.push chQuote)
          else if e = chBackslash then parseStrBody f r2 (acc.push chBackslash)
          else if e = chSlash then parseStrBody f r2 (acc.push chSlash)
          else if e.toNat = 98 then parseStrBody f r2 (acc.push (Char.ofNat 8))
          else if e.toNat = 102 then parseStrBody f r2 (acc.push (Char.ofNat 12))
          else if e.toNat = 110 then parseStrBody f r2 (acc.push chNL)
          else if e.toNat = 114 then parseStrBody f r2 (acc.push chCR)
          else if e.toNat = 116 then parseStrBody f r2 (acc.push chTab)
          else if e.toNat = 117 then
            match r2 with
            | h1 :: h2 :: h3 :: h4 :: r3 =>
              match hexVal h1, hexVal h2, hexVal h3, hexVal h4 with
              | some a, some b, some c2, some d =>
                parseStrBody f r3 (acc.push (Char.ofNat (((a * 16 + b) * 16 + c2) * 16 + d)))
              | _, _, _, _ => none
            | _ => none
          else none
      else if c.toNat < 32 then none
      else parseStrBody f rest (acc.push c)

/-- A JSON number per the grammar `JSON.parse` accepts, evaluated exactly. -/
def parseNum (cs : List Char) : Option (Json × List Char) :=
  let p1 : Bool × List Char :=
    match cs with
    | c :: r => if c = chMinus then (true, r) else (false, cs)
    | [] => (false, cs)
  match p1 with
  | (neg, cs1) =>
    match cs1 with
    | [] => none
    | c :: _ =>
      if !isDigitCh c then none
      else
        match takeDigitsAux 0 0 cs1 with
        | (ip, icnt, cs2) =>
          if c = chZero ∧ 1 < icnt then none
          else
            let fracRes : Option (Nat × Nat × List Char) :=
              match cs2 with
              | d :: r =>
                if d = chDot then
                  match takeDigitsAux 0 0 r with
                  | (fv, fn, rr) => if fn = 0 then none else some (fv, fn, rr)
                else some (0, 0, cs2)
              | [] => some (0, 0, cs2)
            match fracRes with
            | none => none
            | some (fv, fn, cs3) =>
              let expRes : Option (Int × List Char) :=
                match cs3 with
                | e :: r =>
                  if e.toNat = 101 ∨ e.toNat = 69 then
                    let p2 : Int × List Char :=
                      match r with
                      | s :: rr =>
                        if s = chPlus then (1, rr)
                        else if s = chMinus then (-1, rr)
                        else (1, r)
                      | [] => (1, r)
                    match p2 with
                    | (esign, r2) =>
                      match takeDigitsAux 0 0 r2 with
                      | (ev, en, rr2) =>
                        if en = 0 then none else some (esign * (ev : Int), rr2)
                  else some (0, cs3)
                | [] => some (0, cs3)
              match expRes with
              | none => none
              | some (ex, cs4) =>
                let mant : Int := (if neg then -1 else 1) * ((ip * 10 ^ fn + fv : Nat) : Int)
                let base : Rat := (mant : Rat) / (((10 : Nat) ^ fn : Nat) : Rat)
                let q : Rat :=
                  if 0 ≤ ex then base * (((10 : Nat) ^ ex.toNat : Nat) : Rat)
                  else base / (((10 : Nat) ^ (-ex).toNat : Nat) : Rat)
                some (Json.num q, cs4)

/-- Insert a member into an object under JS duplicate-key semantics: the first
occurrence keeps its position, the last value wins. -/
def objInsert (kvs : List (String × Json)) (k : String) (v : Json) :
    List (String × Json) :=
  if kvs.any (fun p => p.1 == k) then
    kvs.map (fun p => if p.1 = k then (k, v) else p)
  else kvs ++ [(k, v)]

mutual

/-- Recursive-descent `JSON.parse` value parser (fuel-indexed; the top-level
entry point supplies sufficient fuel). -/
def parseVal (fuel : Nat) (cs : List Char) : Option (Json × List Char) :=
  match fuel with
  | 0 => none
  | f + 1 =>
    match skipWsJ cs with
    | [] => none
    | c :: rest =>
      if c = chLBrace then
        match skipWsJ rest with
        | [] => none
        | c1 :: r2 =>
          if c1 = chRBrace then some (Json.obj [], r2)
          else parseMembers f (c1 :: r2) []
      else if c = chLBrack then
        match skipWsJ rest with
        | [] => none
        | c1 :: r2 =>
          if c1 = chRBrack then some (Json.arr [], r2)
          else parseElems f (c1 :: r2) []
      else if c = chQuote then
        match parseStrBody (c :: rest).length rest "" with
        | some (s, r) => some (Json.str s, r)
        | none => none
      else if ("true".data).isPrefixOf (c :: rest) then
        some (Json.bool true, (c :: rest).drop 4)
      else if ("false".data).isPrefixOf (c :: rest) then
        some (Json.bool false, (c :: rest).drop 5)
      else if ("null".data).isPrefixOf (c :: rest) then
        some (Json.null, (c :: rest).drop 4)
      else parseNum (c :: rest)

/-- Members of an object, positioned at the start of a key. -/
def parseMembers (fuel : Nat) (cs : List Char) (acc : List (String × Json)) :
    Option (Json × List Char) :=
  match fuel with
  | 0 => none
  | f + 1 =>
    match cs with
    | [] => none
    | c :: rest =>
      if c = chQuote then
        match parseStrBody (c :: rest).length rest "" with
        | none => none
        | some (k, r1) =>
          match skipWsJ r1 with
          | [] => none
          | c2 :: r2 =>
            if c2 = chColon then
              match parseVal f r2 with
              | none => none
              | some (v, r3) =>
                match skipWsJ r3 with
                | [] => none
                | c3 :: r4 =>
                  if c3 = chComma then parseMembers f (skipWsJ r4) (objInsert acc k v)
                  else if c3 = chRBrace then some (Json.obj (objInsert acc k v), r4)
                  else none
            else none
      else none

/-- Elements of an array, positioned at the start of a value. -/
def parseElems (fuel : Nat) (cs : List Char) (acc : List Json) :
    Option (Json × List Char) :=
  match fuel with
  | 0 => none
  | f + 1 =>
    match parseVal f cs with
    | none => none
    | some (v, r1) =>
      match skipWsJ r1 with
      | [] => none
      | c :: r2 =>
        if c = chComma then parseElems f r2 (acc ++ [v])
        else if c = chRBrack then some (Json.arr (acc ++ [v]), r2)
        else none

end

/-- `JSON.parse(s)`: `some` on success, `none` where the source throws a
`SyntaxError`. -/
def jsParse (s : String) : Option Json :=
  match parseVal (2 * s.data.length + 4) s.data with
  | some (j, rest) => if skipWsJ rest = [] then some j else none
  | none => none

/-! ## JSON.stringify -/

def hexDigit (n : Nat) : Char :=
  if n < 10 then Char.ofNat (48 + n) else Char.ofNat (87 + n)

def escChar (c : Char) : String :=
  if c = chQuote then String.mk [chBackslash, chQuote]
  else if c = chBackslash then String.mk [chBackslash, chBackslash]
  else if c = chNL then String.mk [chBackslash, Char.ofNat 110]
  else if c = chCR then String.mk [chBackslash, Char.ofNat 114]
  else if c = chTab then String.mk [chBackslash, Char.ofNat 116]
  else if c.toNat = 8 then String.mk [chBackslash, Char.ofNat 98]
  else if c.toNat = 12 then String.mk [chBackslash, Char.ofNat 102]
  else if c.toNat < 32 then
    String.mk [chBackslash, Char.ofNat 117, chZero, chZero,
      hexDigit (c.toNat / 16), hexDigit (c.toNat % 16)]
  else String.singleton c

def quoteJson (s : String) : String :=
  String.singleton chQuote ++ String.join (s.data.map escChar) ++ String.singleton chQuote

mutual

/-- `JSON.stringify` (compact form, as called by the source).  Number
formatting reproduces JS output for integers; non-integer rationals are
printed in fraction form, an approximation of JS float formatting that no
claim depends on.  `undef` cannot occur in a parsed value. -/
def jsonStringify : Json → String
  | Json.null => "null"
  | Json.undef => "null"
  | Json.bool true => "true"
  | Json.bool false => "false"
  | Json.num q => if q.den = 1 then toString q.num else toString q
  | Json.str s => quoteJson s
  | Json.arr xs => "[" ++ stringifyElems xs ++ "]"
  | Json.obj kvs =>
    String.singleton chLBrace ++ stringifyFields kvs ++ String.singleton chRBrace

def stringifyElems : List Json → String
  | [] => ""
  | [x] => jsonStringify x
  | x :: y :: xs => jsonStringify x ++ "," ++ stringifyElems (y :: xs)

def stringifyFields : List (String × Json) → String
  | [] => ""
  | [(k, v)] => quoteJson k ++ ":" ++ jsonStringify v
  | (k, v) :: p :: xs =>
    quoteJson k ++ ":" ++ jsonStringify v ++ "," ++ stringifyFields (p :: xs)

end

/-! ## The response normalizer (second variant of getStructuredChatResponse) -/

/-- JS property lookup on an object: absent keys give `undefined`; parsed
objects have unique keys (see `objInsert`), so the first match is the value. -/
def jlookup (kvs : List (String × Json)) (k : String) : Json :=
  match kvs.find? (fun p => p.1 == k) with
  | some p => p.2
  | none => Json.undef

/-- `x.k` for the property names the normalizer reads: on objects a lookup, on
other non-nullish values `undefined` (none of the read names exists on JS
primitives or arrays).  Reading a property of `null`/`undefined` throws and is
handled separately in `handleParsed`/`innerHandle`. -/
def getField : Json → String → Json
  | Json.obj kvs, k => jlookup kvs k
  | _, _ => Json.undef

/-- JS truthiness of the modeled values. -/
def jsTruthy : Json → Bool
  | Json.null => false
  | Json.undef => false
  | Json.bool b => b
  | Json.num q => if q = 0 then false else true
  | Json.str s => if s = "" then false else true
  | Json.arr _ => true
  | Json.obj _ => true

/-- `s.substring(0, n)` (code units approximated by scalar values). -/
def substring0 (s : String) (n : Nat) : String := String.mk (s.data.take n)

/-- The result type of the normalizer.  The TypeScript interface declares
`title`/`summary` as strings and `content` as an item array, but the source
casts unvalidated parsed values into it, so the fields hold arbitrary JS
values; the embedding keeps them as `Json`. -/
structure StructuredChatResponse where
  title : Json
  summary : Json
  content : Json

/-- The JS whitespace class `\s` (the members that can appear here). -/
def isJsWs (c : Char) : Bool :=
  c == chSpace || c == chTab || c == chNL || c == chCR || c == chFF || c == chVT

/-- Global replacement of a literal token (plus, optionally, the following
whitespace run) by the empty string, as in `text.replace(/tok\s*[/]g, "")`. -/
def replaceTokGlobal (tok : List Char) (alsoWs : Bool) : Nat → List Char → List Char
  | 0, cs => cs
  | _ + 1, [] => []
  | f + 1, c :: cs =>
    if tok.isPrefixOf (c :: cs) then
      replaceTokGlobal tok alsoWs f
        (let r := (c :: cs).drop tok.length
         if alsoWs then r.dropWhile isJsWs else r)
    else c :: replaceTokGlobal tok alsoWs f cs

/-- Global replacement of every nonempty run of `p`-characters by one space,
as in `text.replace(/X+/g, " ")`. -/
def collapseRuns (p : Char → Bool) : Nat → List Char → List Char
  | 0, cs => cs
  | _ + 1, [] => []
  | f + 1, c :: cs =>
    if p c then chSpace :: collapseRuns p f (cs.dropWhile p)
    else c :: collapseRuns p f cs

/-- `String.prototype.trim` (over the whitespace characters modeled here). -/
def trimChars (cs : List Char) : List Char :=
  ((cs.dropWhile isJsWs).reverse.dropWhile isJsWs).reverse

/-- The cleanup chain applied to the raw response text in the second variant:
trim, then remove ```` ```json ````-fences, ```` ``` ````-fences, `**`, `###`,
`##`, `#` (each with trailing whitespace where the source regex has `\s*`),
then collapse newline runs and whitespace runs to single spaces, then trim. -/
def cleanList (cs0 : List Char) : List Char :=
  let c0 := trimChars cs0
  let c1 := replaceTokGlobal ("```json".data) true (c0.length + 1) c0
  let c2 := replaceTokGlobal ("```".data) true (c1.length + 1) c1
  let c3 := replaceTokGlobal [chStar, chStar] false (c2.length + 1) c2
  let c4 := replaceTokGlobal [chHash, chHash, chHash] true (c3.length + 1) c3
  let c5 := replaceTokGlobal [chHash, chHash] true (c4.length + 1) c4
  let c6 := replaceTokGlobal [chHash] true (c5.length + 1) c5
  let c7 := collapseRuns (fun c => c == chNL) (c6.length + 1) c6
  let c8 := collapseRuns isJsWs (c7.length + 1) c7
  trimChars c8

def cleanText (s : String) : String := String.mk (cleanList s.data)

/-- Scan after a nested opening brace: `[^{}]*` then `}`; returns the consumed
characters (closing brace included) and the rest. -/
def nestedScanSpan : Nat → List Char → Option (List Char × List Char)
  | 0, _ => none
  | _ + 1, [] => none
  | f + 1, c :: cs =>
    if c = chRBrace then some ([c], cs)
    else if c = chLBrace then none
    else
      match nestedScanSpan f cs with
      | some (a, r) => some (c :: a, r)
      | none => none

/-- Body of a match of `\{(?:[^{}]|(?:\{[^{}]*\}))*\}` after the opening
brace; for this regex greedy matching is deterministic. -/
def spanLoop : Nat → List Char → Option (List Char × List Char)
  | 0, _ => none
  | _ + 1, [] => none
  | f + 1, c :: cs =>
    if c = chRBrace then some ([c], cs)
    else if c = chLBrace then
      match nestedScanSpan f cs with
      | some (inner, rest) =>
        match spanLoop f rest with
        | some (a, r) => some (c :: (inner ++ a), r)
        | none => none
      | none => none
    else
      match spanLoop f cs with
      | some (a, r) => some (c :: a, r)
      | none => none

/-- All matches of `text.match(/\{(?:[^{}]|(?:\{[^{}]*\}))*\}/g)`, scanning
left to right, continuing after each match. -/
def scanSpans : Nat → List Char → List (List Char)
  | 0, _ => []
  | _ + 1, [] => []
  | f + 1, c :: cs =>
    if c = chLBrace then
      match spanLoop f cs with
      | some (body, rest) => (chLBrace :: body) :: scanSpans f rest
      | none => scanSpans f cs
    else scanSpans f cs

/-- `jsonMatches[jsonMatches.length - 1]`: the last match, if any. -/
def jsonSpansLast (s : String) : Option String :=
  ((scanSpans (s.data.length + 1) s.data).getLast?).map String.mk

/-- `text.match(/\{[\s\S]*\}/)`: from the first opening brace to the last
closing brace after it, if both exist. -/
def braceSpan (s : String) : Option String :=
  let t := s.data.dropWhile (fun c => !(c == chLBrace))
  let r := t.reverse.dropWhile (fun c => !(c == chRBrace))
  match r with
  | [] => none
  | _ => some (String.mk r.reverse)

/-- `s.toLowerCase()` (ASCII range, which covers the scanned keywords). -/
def jsToLower (s : String) : String := String.mk (s.data.map Char.toLower)

/-- `text.split('.')`: split at every dot, keeping empty pieces. -/
def splitOnDot : List Char → List (List Char)
  | [] => [[]]
  | c :: cs =>
    if c = chDot then [] :: splitOnDot cs
    else
      match splitOnDot cs with
      | [] => [[c]]
      | g :: gs => (c :: g) :: gs

/-- The title keyword scan of `createFallbackResponse`. -/
def keywordTitle (originalPrompt : String) : String :=
  if strContains (jsToLower originalPrompt) "tenant" then "Tenant Rights"
  else if strContains (jsToLower originalPrompt) "property" then "Property Law"
  else if strContains (jsToLower originalPrompt) "divorce" then "Divorce Procedure"
  else if strContains (jsToLower originalPrompt) "consumer" then "Consumer Rights"
  else if strContains (jsToLower originalPrompt) "fir" then "FIR and Police Rights"
  else "Legal Information"

/-- The summary synthesis of `createFallbackResponse`: first nonblank
dot-separated sentence truncated to 100 characters (with "..." if it was
longer, else a restored "."), or the first 100 characters of the text. -/
def fallbackSummary (text : String) : String :=
  match (splitOnDot text.data).filter (fun g => decide (0 < (trimChars g).length)) with
  | g0 :: _ => String.mk (g0.take 100) ++ (if 100 < g0.length then "..." else ".")
  | [] => substring0 text 100 ++ (if 100 < text.length then "..." else "")

def warningText : String :=
  "This is general legal information only, not specific legal advice. Consult a qualified lawyer for your specific situation."

/-- `createFallbackResponse(text, originalPrompt)`. -/
def createFallbackResponse (text originalPrompt : String) : StructuredChatResponse :=
  ⟨Json.str (keywordTitle originalPrompt), Json.str (fallbackSummary text),
   Json.arr [Json.obj [("type", Json.str "text"), ("content", Json.str text)],
             Json.obj [("type", Json.str "warning"), ("content", Json.str warningText)]]⟩

/-- `x.substring(0, 100) + "..."` where `x` is an arbitrary JS value: a throw
(`substring` is not a function) on every non-string. -/
def jsSubstringEllipsis : Json → Except Unit String
  | Json.str s => Except.ok (substring0 s 100 ++ "...")
  | _ => Except.error ()

/-- Whether reading a property of this value throws a `TypeError` in JS. -/
def isNullish : Json → Bool
  | Json.null => true
  | Json.undef => true
  | _ => false

/-- The body of the outer `try` after `JSON.parse` succeeded:
single-content-item wrapping, missing-field backfill, or the parsed document
itself.  Reading a property of a parsed `null` throws (modeled by the nullish
test; the source's `&&`-chain throws on its first access, so sequencing all
four reads is observationally equal). -/
def handleParsed (j : Json) : Except Unit StructuredChatResponse :=
  if isNullish j then Except.error ()
  else if jsTruthy (getField j "type") && jsTruthy (getField j "content") &&
      !jsTruthy (getField j "title") && !jsTruthy (getField j "summary") then
    match jsSubstringEllipsis (getField j "content") with
    | Except.ok sum =>
      Except.ok ⟨Json.str "Legal Analysis", Json.str sum, Json.arr [j]⟩
    | Except.error e => Except.error e
  else if !jsTruthy (getField j "title") || !jsTruthy (getField j "summary") ||
      !jsTruthy (getField j "content") then
    Except.ok
      ⟨(if jsTruthy (getField j "title") then getField j "title"
        else Json.str "Legal Analysis"),
       (if jsTruthy (getField j "summary") then getField j "summary"
        else
          match getField j "content" with
          | Json.str s2 => Json.str (substring0 s2 100 ++ "...")
          | _ => Json.str "Analysis of your legal question"),
       (match getField j "content" with
        | Json.arr xs => Json.arr xs
        | _ =>
          Json.arr [Json.obj [("type", Json.str "text"),
            ("content",
              match getField j "content" with
              | Json.str s2 => Json.str s2
              | _ => Json.str (jsonStringify j))]])⟩
  else Except.ok ⟨getField j "title", getField j "summary", getField j "content"⟩

/-- The body of the inner `try` of the catch block after its `JSON.parse`
succeeded: full document, single-item wrap, or fall through (`none`). -/
def innerHandle (j : Json) : Except Unit (Option StructuredChatResponse) :=
  if isNullish j then Except.error ()
  else if jsTruthy (getField j "title") && jsTruthy (getField j "summary") &&
      jsTruthy (getField j "content") then
    Except.ok (some ⟨getField j "title", getField j "summary", getField j "content"⟩)
  else if jsTruthy (getField j "type") && jsTruthy (getField j "content") then
    match jsSubstringEllipsis (getField j "content") with
    | Except.ok sum =>
      Except.ok (some ⟨Json.str "Legal Analysis", Json.str sum, Json.arr [j]⟩)
    | Except.error e => Except.error e
  else Except.ok none

/-- The body of the inner `try`: parse of the extracted span (throwing on
failure) followed by `innerHandle`. -/
def innerParse (m : String) : Except Unit (Option StructuredChatResponse) :=
  match jsParse m with
  | none => Except.error ()
  | some j => innerHandle j

/-- The inner `try` of the catch block, over the brace-span extraction: its
own throws (parse failure, property access on `null`, `substring` on a
non-string) are absorbed into `ok none` by the empty inner `catch`. -/
def innerAttempt (text : String) : Except Unit (Option StructuredChatResponse) :=
  match braceSpan text with
  | none => Except.ok none
  | some m =>
    match innerParse m with
    | Except.ok r => Except.ok r
    | Except.error _ => Except.ok none

/-- The `catch (parseError)` block: brace-span extraction, a second parse
attempt inside an inner `try` whose own failures are absorbed, then
`createFallbackResponse`. -/
def catchBlock (text prompt : String) : Except Unit StructuredChatResponse :=
  match innerAttempt text with
  | Except.ok (some d) => Except.ok d
  | Except.ok none => Except.ok (createFallbackResponse text prompt)
  | Except.error e => Except.error e

/-- The text the first parse attempt runs on: the cleaned response, replaced
by the last depth-limited brace span when the global regex finds one. -/
def pipelineText (raw : String) : String :=
  match jsonSpansLast (cleanText raw) with
  | some s => s
  | none => cleanText raw

/-- The outer `try`: strict `JSON.parse` of the selected text (throwing on
failure) followed by the wrapping/backfill logic. -/
def parseAttempt (text : String) : Except Unit StructuredChatResponse :=
  match jsParse text with
  | none => Except.error ()
  | some j => handleParsed j

/-- The response-normalization stage of `getStructuredChatResponse` (second
variant): cleanup, span selection, strict parse inside `try`, and the catch
block.  An `error` result would be an exception escaping to the caller. -/
def getStructuredChatResponseModel (raw prompt : String) :
    Except Unit StructuredChatResponse :=
  match parseAttempt (pipelineText raw) with
  | Except.ok d => Except.ok d
  | Except.error _ => catchBlock (pipelineText raw) prompt

/-! ## Helper lemmas -/

theorem canMakeRequestRun_of_true {c : RLConfig} {s : RateLimiter} {now : Nat}
    (h : canMakeRequest c s now = true) :
    canMakeRequestRun c s now =
      (true, ⟨pruneReqs c now s.requests, s.lastRequestTime⟩) := by
  unfold canMakeRequest at h
  unfold canMakeRequestRun
  by_cases hc : (now : Int) - (s.lastRequestTime : Int) < (c.minInterval : Int)
  · simp [hc] at h
  · simp [hc] at h ⊢
    exact h

theorem inWindow_mono {c : RLConfig} {t t' r : Nat} (h : t ≤ t')
    (hw : inWindow c t' r = true) : inWindow c t r = true := by
  simp only [inWindow, decide_eq_true_eq] at hw ⊢
  omega

theorem filter_inWindow_absorb (c : RLConfig) {t t' : Nat} (h : t ≤ t')
    (l : List Nat) :
    (l.filter (inWindow c t)).filter (inWindow c t') = l.filter (inWindow c t') := by
  induction l with
  | nil => rfl
  | cons a l ih =>
    by_cases h2 : inWindow c t' a = true
    · have h1 : inWindow c t a = true := inWindow_mono h h2
      simp [List.filter_cons, h1, h2, ih]
    · by_cases h1 : inWindow c t a = true
      · simp [List.filter_cons, h1, h2, ih]
      · simp [List.filter_cons, h1, h2, ih]

theorem length_filter_le_of_imp {l : List Nat} {p q : Nat → Bool}
    (h : ∀ a ∈ l, p a = true → q a = true) :
    (l.filter p).length ≤ (l.filter q).length := by
  induction l with
  | nil => simp
  | cons a l ih =>
    have ih' := ih (fun x hx hpx => h x (List.mem_cons_of_mem a hx) hpx)
    by_cases hp : p a = true
    · have hq := h a (List.mem_cons_self a l) hp
      simpa [List.filter_cons, hp, hq] using ih'
    · by_cases hq : q a = true
      · simp only [List.filter_cons, if_neg hp, if_pos hq, List.length_cons]
        exact Nat.le_trans ih' (Nat.le_succ _)
      · simpa [List.filter_cons, hp, hq] using ih'

theorem foldl_min_mem (xs : List Nat) : ∀ x : Nat, xs.foldl Nat.min x ∈ x :: xs := by
  induction xs with
  | nil => intro x; simp [List.foldl]
  | cons y ys ih =>
    intro x
    have h := ih (Nat.min x y)
    have hxy : Nat.min x y = x ∨ Nat.min x y = y := by
      rcases Nat.le_total x y with h1 | h1
      · exact Or.inl (Nat.min_eq_left h1)
      · exact Or.inr (Nat.min_eq_right h1)
    simp only [List.foldl]
    rcases List.mem_cons.mp h with h2 | h2
    · rcases hxy with h3 | h3 <;> rw [h2, h3] <;> simp
    · simp only [List.mem_cons]
      tauto

theorem listMin_mem {l : List Nat} (h : l ≠ []) : listMin l ∈ l := by
  cases l with
  | nil => exact absurd rfl h
  | cons x xs => simpa [listMin] using foldl_min_mem xs x

/-! ## C1 and C10: the dispatcher -/

/-- C1: with admission available, if the first backend attempt fails with a
quota-class error (message containing '429' or 'quota'), the dispatcher records
one admission for that attempt, proceeds to the second target, records one
admission for it, and returns its successful result (two admissions in total);
if the first attempt fails with a non-quota error, that error is re-raised
immediately, only the one admission is recorded, and the second target is never
invoked (the result does not depend on it); if both targets fail with
quota-class errors, the distinct all-backends-exhausted error is raised. -/
theorem dispatcher_quota_fallback {α : Type} (c : RLConfig)
    (fn : GModel → Except String α) (s : RateLimiter) (now : Nat)
    (hadm : canMakeRequest c s now = true) :
    (∀ e a, fn GModel.flash = .error e → isQuotaError e = true → fn GModel.pro = .ok a →
      makeAPIRequestWithFallback c fn true s now =
        (.ok a, ⟨pruneReqs c now s.requests ++ [now, now], now⟩)) ∧
    (∀ e, fn GModel.flash = .error e → isQuotaError e = false →
      makeAPIRequestWithFallback c fn true s now =
        (.error e, ⟨pruneReqs c now s.requests ++ [now], now⟩) ∧
      ∀ fn' : GModel → Except String α, fn' GModel.flash = fn GModel.flash →
        makeAPIRequestWithFallback c fn' true s now =
          makeAPIRequestWithFallback c fn true s now) ∧
    (∀ e1 e2, fn GModel.flash = .error e1 → isQuotaError e1 = true →
      fn GModel.pro = .error e2 → isQuotaError e2 = true →
      makeAPIRequestWithFallback c fn true s now =
        (.error allQuotaMsg, ⟨pruneReqs c now s.requests ++ [now, now], now⟩)) := by
  refine ⟨?_, ?_, ?_⟩
  · intro e a hf hq hp
    simp [makeAPIRequestWithFallback, canMakeRequestRun_of_true hadm, modelLoop,
      recordRequest, hf, hq, hp]
  · intro e hf hq
    constructor
    · simp [makeAPIRequestWithFallback, canMakeRequestRun_of_true hadm, modelLoop,
        recordRequest, hf, hq]
    · intro fn' hfe
      simp [makeAPIRequestWithFallback, canMakeRequestRun_of_true hadm, modelLoop,
        recordRequest, hfe, hf, hq]
  · intro e1 e2 hf hq1 hp hq2
    simp [makeAPIRequestWithFallback, canMakeRequestRun_of_true hadm, modelLoop,
      recordRequest, hf, hq1, hp, hq2]

/-- Witness for C1: a concrete run in which the first attempt hits a quota
error and the second succeeds. -/
theorem dispatcher_quota_fallback_witness :
    makeAPIRequestWithFallback cfgV1
        (fun m => match m with
          | GModel.flash => Except.error "429 quota exceeded"
          | GModel.pro => Except.ok 7)
        true initRL 4000 =
      (Except.ok 7, ⟨[4000, 4000], 4000⟩) := by
  have h := (dispatcher_quota_fallback cfgV1
    (fun m => match m with
      | GModel.flash => Except.error "429 quota exceeded"
      | GModel.pro => Except.ok 7)
    initRL 4000 (by decide)).1 "429 quota exceeded" 7 rfl (by decide) rfl
  simpa [initRL, pruneReqs] using h

/-- C10: the two backend handles are constructed with the same model identifier
"gemini-2.5-flash", so for every request function whose behavior agrees on the
two (identically configured) handles, `makeAPIRequestWithFallback(fn, true)`
and `makeAPIRequestWithFallback(fn, false)` are identical: the flag has no
observable effect and the two-tier fallback is a retry against the same
backend. -/
theorem flag_no_observable_effect :
    modelName GModel.flash = modelName GModel.pro ∧
    ∀ (α : Type) (fn : GModel → Except String α), fn GModel.flash = fn GModel.pro →
      ∀ (c : RLConfig) (s : RateLimiter) (now : Nat) (b1 b2 : Bool),
        makeAPIRequestWithFallback c fn b1 s now =
          makeAPIRequestWithFallback c fn b2 s now := by
  refine ⟨rfl, ?_⟩
  intro α fn hfp c s now b1 b2
  have hloop : ∀ s1 : RateLimiter,
      modelLoop fn now [GModel.flash, GModel.pro] s1 none =
        modelLoop fn now [GModel.pro, GModel.flash] s1 none := by
    intro s1
    cases hv : fn GModel.pro with
    | ok a => simp [modelLoop, hfp, hv]
    | error e =>
      by_cases hq : isQuotaError e = true
      · simp [modelLoop, hfp, hv, hq]
      · have hq' : isQuotaError e = false := by simpa using hq
        simp [modelLoop, hfp, hv, hq']
  unfold makeAPIRequestWithFallback
  cases b1 <;> cases b2 <;> simp [hloop]

/-- Witness for C10: concrete equal results for both flag values. -/
theorem flag_no_observable_effect_witness :
    makeAPIRequestWithFallback cfgV1 (fun _ => Except.ok 3) true initRL 5000 =
      makeAPIRequestWithFallback cfgV1 (fun _ => Except.ok 3) false initRL 5000 :=
  flag_no_observable_effect.2 Nat (fun _ => Except.ok 3) rfl cfgV1 initRL 5000 true false

/-! ## C3: the admission-trace invariant -/

theorem rlInv_init (c : RLConfig) : RLInv c initRL [] 0 := by
  refine ⟨rfl, ?_, ?_, ?_, ?_, ?_⟩ <;> simp [initRL]

theorem rlInv_step {c : RLConfig} {s : RateLimiter} {L : List Nat} {tcur : Nat}
    (inv : RLInv c s L tcur) {t : Nat} (ht : tcur ≤ t) :
    RLInv c (rlStep c (s, L) t).1 (rlStep c (s, L) t).2 t := by
  by_cases hsp : (t : Int) - (s.lastRequestTime : Int) < (c.minInterval : Int)
  · have hrun : canMakeRequestRun c s t = (false, s) := by
      simp [canMakeRequestRun, hsp]
    simp only [rlStep, hrun]
    exact { lastEq := inv.lastEq
            bounded := fun r hr => Nat.le_trans (inv.bounded r hr) ht
            lastLe := Nat.le_trans inv.lastLe ht
            filtEq := fun u hu => inv.filtEq u (Nat.le_trans ht hu)
            capBound := inv.capBound
            spacing := inv.spacing }
  · by_cases hcap : (pruneReqs c t s.requests).length < c.maxRequestsPerMinute
    · have hrun : canMakeRequestRun c s t =
          (true, ⟨pruneReqs c t s.requests, s.lastRequestTime⟩) := by
        simp [canMakeRequestRun, hsp, hcap]
      simp only [rlStep, hrun, recordRequest]
      refine { lastEq := ?_, bounded := ?_, lastLe := Nat.le_refl t,
               filtEq := ?_, capBound := ?_, spacing := ?_ }
      · show t = (L ++ [t]).getLastD 0
        simp [List.getLastD_concat]
      · intro r hr
        rcases List.mem_append.mp hr with h | h
        · exact Nat.le_trans (inv.bounded r h) ht
        · simp at h; omega
      · intro u hu
        show (L ++ [t]).filter (inWindow c u) =
          (pruneReqs c t s.requests ++ [t]).filter (inWindow c u)
        rw [List.filter_append, List.filter_append, inv.filtEq u (Nat.le_trans ht hu)]
        rw [show pruneReqs c t s.requests = s.requests.filter (inWindow c t) from rfl]
        rw [filter_inWindow_absorb c hu]
      · intro T
        show ((L ++ [t]).filter (inSlice c T)).length ≤ c.maxRequestsPerMinute
        rw [List.filter_append]
        by_cases hT : inSlice c T t = true
        · have hTt : t ≤ T := by
            have := hT
            simp only [inSlice, Bool.and_eq_true, decide_eq_true_eq] at this
            exact this.1
          have himp : ∀ a ∈ L, inSlice c T a = true → inWindow c t a = true := by
            intro a _ ha
            simp only [inSlice, Bool.and_eq_true, decide_eq_true_eq] at ha
            simp only [inWindow, decide_eq_true_eq]
            omega
          have h1 : (L.filter (inSlice c T)).length ≤
              (L.filter (inWindow c t)).length := length_filter_le_of_imp himp
          have h2 : (L.filter (inWindow c t)).length =
              (pruneReqs c t s.requests).length := by
            rw [inv.filtEq t ht]; rfl
          simp only [List.length_append, List.filter_cons, if_pos hT, List.filter_nil,
            List.length_cons, List.length_nil]
          omega
        · simp only [List.filter_cons, if_neg hT, List.filter_nil, List.append_nil]
          exact inv.capBound T
      · show List.Chain' (fun a b => a + c.minInterval ≤ b) (L ++ [t])
        rw [List.chain'_append]
        refine ⟨inv.spacing, List.chain'_singleton t, ?_⟩
        intro x hx y hy
        simp only [List.head?_cons, Option.mem_def, Option.some.injEq] at hy
        subst hy
        have hx' : L.getLast? = some x := Option.mem_def.mp hx
        have hxl : x ∈ L := List.mem_of_getLast?_eq_some hx'
        have hxt : x ≤ tcur := inv.bounded x hxl
        have hlast : s.lastRequestTime = x := by
          rw [inv.lastEq, List.getLastD_eq_getLast?, hx']
          rfl
        rw [hlast] at hsp
        omega
    · have hrun : canMakeRequestRun c s t =
          (false, ⟨pruneReqs c t s.requests, s.lastRequestTime⟩) := by
        simp [canMakeRequestRun, hsp, hcap]
      simp only [rlStep, hrun]
      refine { lastEq := inv.lastEq, bounded := fun r hr => Nat.le_trans (inv.bounded r hr) ht,
               lastLe := Nat.le_trans inv.lastLe ht,
               filtEq := ?_, capBound := inv.capBound, spacing := inv.spacing }
      intro u hu
      show L.filter (inWindow c u) = (pruneReqs c t s.requests).filter (inWindow c u)
      rw [inv.filtEq u (Nat.le_trans ht hu)]
      rw [show pruneReqs c t s.requests = s.requests.filter (inWindow c t) from rfl]
      rw [filter_inWindow_absorb c hu]

theorem rlInv_fold (c : RLConfig) :
    ∀ (ts : List Nat) (s : RateLimiter) (L : List Nat) (tcur : Nat),
      RLInv c s L tcur → List.Chain (· ≤ ·) tcur ts →
      ∃ tf, RLInv c (ts.foldl (rlStep c) (s, L)).1 (ts.foldl (rlStep c) (s, L)).2 tf := by
  intro ts
  induction ts with
  | nil => exact fun s L tcur inv _ => ⟨tcur, inv⟩
  | cons t ts ih =>
    intro s L tcur inv hch
    cases hch with
    | cons hle hch' =>
      have inv' := rlInv_step inv hle
      have := ih (rlStep c (s, L) t).1 (rlStep c (s, L) t).2 t inv' hch'
      simpa using this

/-- C3: along every monotone sequence of admission checks in which
`recordRequest()` is invoked exactly when `canMakeRequest()` returns true, the
recorded admissions satisfy: at most `maxRequestsPerMinute` of them lie in any
trailing `timeWindow`-long slice, and consecutive admissions are at least
`minInterval` apart.  (The dispatcher's fallback path records a second
admission without an intervening check and is outside this discipline.) -/
theorem rateLimiter_cap_and_spacing (c : RLConfig) (ts : List Nat)
    (hmono : List.Chain' (· ≤ ·) ts) :
    (∀ T, ((runTrace c ts).2.filter (inSlice c T)).length ≤ c.maxRequestsPerMinute) ∧
    List.Chain' (fun a b => a + c.minInterval ≤ b) (runTrace c ts).2 := by
  have hch : List.Chain (· ≤ ·) 0 ts := by
    cases ts with
    | nil => exact List.Chain.nil
    | cons a l => exact List.Chain.cons (Nat.zero_le a) hmono
  obtain ⟨tf, inv⟩ := rlInv_fold c ts initRL [] 0 (rlInv_init c) hch
  exact ⟨inv.capBound, inv.spacing⟩

/-- Witness for C3: a concrete check sequence, with the conclusion obtained
from the theorem. -/
theorem rateLimiter_cap_and_spacing_witness :
    List.Chain' (· ≤ ·) [4000, 4500, 9000] ∧
    ((∀ T, ((runTrace cfgV1 [4000, 4500, 9000]).2.filter (inSlice cfgV1 T)).length ≤
        cfgV1.maxRequestsPerMinute) ∧
      List.Chain' (fun a b => a + cfgV1.minInterval ≤ b)
        (runTrace cfgV1 [4000, 4500, 9000]).2) := by
  have hc : List.Chain' (fun a b : Nat => a ≤ b) [4000, 4500, 9000] :=
    List.Chain.cons (by omega) (List.Chain.cons (by omega) List.Chain.nil)
  exact ⟨hc, rateLimiter_cap_and_spacing cfgV1 [4000, 4500, 9000] hc⟩

/-! ## C4 and C5: getTimeUntilNextRequest vs canMakeRequest -/

theorem reach_admit {c : RLConfig} {s : RateLimiter} {t : Nat} (h : ReachRL c s t)
    {t' : Nat} (ht : t ≤ t') {s' : RateLimiter}
    (hx : (canMakeRequestRun c s t').1 = true)
    (he : recordRequest (canMakeRequestRun c s t').2 t' = s') : ReachRL c s' t' :=
  he ▸ ReachRL.admitOne (ReachRL.tick h ht) hx

theorem reach_rlWitState : ReachRL cfgV1 rlWitState 64001 := by
  have h1 : ReachRL cfgV1 ⟨[4000], 4000⟩ 4000 :=
    reach_admit ReachRL.init (by decide) (by decide) (by decide)
  have h2 : ReachRL cfgV1 ⟨[4000, 8000], 8000⟩ 8000 :=
    reach_admit h1 (by decide) (by decide) (by decide)
  have h3 : ReachRL cfgV1 ⟨[4000, 8000, 12000], 12000⟩ 12000 :=
    reach_admit h2 (by decide) (by decide) (by decide)
  have h4 : ReachRL cfgV1 ⟨[4000, 8000, 12000, 16000], 16000⟩ 16000 :=
    reach_admit h3 (by decide) (by decide) (by decide)
  have h5 : ReachRL cfgV1 ⟨[4000, 8000, 12000, 16000, 20000], 20000⟩ 20000 :=
    reach_admit h4 (by decide) (by decide) (by decide)
  have h6 : ReachRL cfgV1 ⟨[4000, 8000, 12000, 16000, 20000, 24000], 24000⟩ 24000 :=
    reach_admit h5 (by decide) (by decide) (by decide)
  have h7 : ReachRL cfgV1
      ⟨[4000, 8000, 12000, 16000, 20000, 24000, 28000], 28000⟩ 28000 :=
    reach_admit h6 (by decide) (by decide) (by decide)
  have h8 : ReachRL cfgV1
      ⟨[4000, 8000, 12000, 16000, 20000, 24000, 28000, 32000], 32000⟩ 32000 :=
    reach_admit h7 (by decide) (by decide) (by decide)
  have h9 : ReachRL cfgV1
      ⟨[4000, 8000, 12000, 16000, 20000, 24000, 28000, 32000, 36000], 36000⟩ 36000 :=
    reach_admit h8 (by decide) (by decide) (by decide)
  have h10 : ReachRL cfgV1
      ⟨[4000, 8000, 12000, 16000, 20000, 24000, 28000, 32000, 36000, 40000],
        40000⟩ 40000 :=
    reach_admit h9 (by decide) (by decide) (by decide)
  have h11 : ReachRL cfgV1
      ⟨[4000, 8000, 12000, 16000, 20000, 24000, 28000, 32000, 36000, 40000,
        44000], 44000⟩ 44000 :=
    reach_admit h10 (by decide) (by decide) (by decide)
  have h12 : ReachRL cfgV1
      ⟨[4000, 8000, 12000, 16000, 20000, 24000, 28000, 32000, 36000, 40000,
        44000, 48000], 48000⟩ 48000 :=
    reach_admit h11 (by decide) (by decide) (by decide)
  have h13 : ReachRL cfgV1
      ⟨[4000, 8000, 12000, 16000, 20000, 24000, 28000, 32000, 36000, 40000,
        44000, 48000, 52000], 52000⟩ 52000 :=
    reach_admit h12 (by decide) (by decide) (by decide)
  have h14 : ReachRL cfgV1
      ⟨[4000, 8000, 12000, 16000, 20000, 24000, 28000, 32000, 36000, 40000,
        44000, 48000, 52000, 56000], 56000⟩ 56000 :=
    reach_admit h13 (by decide) (by decide) (by decide)
  have h15 : ReachRL cfgV1 rlWitState 60000 :=
    reach_admit h14 (by decide) (by decide) (by decide)
  exact ReachRL.tick h15 (by omega)

/-- C4 counterexample: in a reachable state (fifteen admissions at
4000, 8000, ..., 60000; instant 64001) `canMakeRequest()` returns true while
`getTimeUntilNextRequest()` returns -1, not 0: the latter neither prunes nor
ignores the expired entry at 4000. -/
theorem timeUntil_mismatch_cex :
    ReachRL cfgV1 rlWitState 64001 ∧
    canMakeRequest cfgV1 rlWitState 64001 = true ∧
    getTimeUntilNextRequest cfgV1 rlWitState 64001 ≠ 0 :=
  ⟨reach_rlWitState, by decide, by decide⟩

/-- C4 amended: for every state whose recorded instants all lie inside the
window at the evaluation instant (in particular any state immediately after a
`canMakeRequest()` prune at that instant), `getTimeUntilNextRequest()` is 0 if
and only if `canMakeRequest()` is true. -/
theorem timeUntil_zero_iff_admissible (c : RLConfig) (s : RateLimiter) (now : Nat)
    (hcap : 0 < c.maxRequestsPerMinute)
    (hfresh : ∀ r ∈ s.requests, (now : Int) - (r : Int) < (c.timeWindow : Int)) :
    (getTimeUntilNextRequest c s now = 0) ↔ (canMakeRequest c s now = true) := by
  have hp : pruneReqs c now s.requests = s.requests := by
    unfold pruneReqs
    refine List.filter_eq_self.mpr ?_
    intro a ha
    simp only [inWindow, decide_eq_true_eq]
    exact hfresh a ha
  unfold getTimeUntilNextRequest canMakeRequest
  rw [hp]
  by_cases hsp : (now : Int) - (s.lastRequestTime : Int) < (c.minInterval : Int)
  · simp only [if_pos hsp]
    constructor
    · intro h0
      omega
    · intro hfalse
      simp at hfalse
  · simp only [if_neg hsp]
    by_cases hlen : c.maxRequestsPerMinute ≤ s.requests.length
    · have hne : s.requests ≠ [] := by
        intro h0
        rw [h0] at hlen
        simp at hlen
        omega
      have hmem := hfresh _ (listMin_mem hne)
      simp only [if_pos hlen, decide_eq_true_eq]
      constructor
      · intro h0
        omega
      · intro hc
        omega
    · simp only [if_neg hlen, decide_eq_true_eq]
      constructor
      · intro _
        omega
      · intro _
        trivial

/-- Witness for the amended C4. -/
theorem timeUntil_zero_iff_admissible_witness :
    0 < cfgV1.maxRequestsPerMinute ∧
    (∀ r ∈ (RateLimiter.mk [5000] 5000).requests,
      ((9000 : Nat) : Int) - (r : Int) < (cfgV1.timeWindow : Int)) ∧
    ((getTimeUntilNextRequest cfgV1 ⟨[5000], 5000⟩ 9000 = 0) ↔
      (canMakeRequest cfgV1 ⟨[5000], 5000⟩ 9000 = true)) :=
  ⟨by decide, by decide,
    timeUntil_zero_iff_admissible cfgV1 ⟨[5000], 5000⟩ 9000 (by decide) (by decide)⟩

/-- C5 counterexample: in the same reachable state, `canMakeRequest()` is not
side-effect-free: it reassigns `requests` to the pruned array, and interposing
it changes the value a following `getTimeUntilNextRequest()` call returns
(from -1 to 0). -/
theorem canMakeRequest_mutates_cex :
    ReachRL cfgV1 rlWitState 64001 ∧
    (canMakeRequestRun cfgV1 rlWitState 64001).2.requests ≠ rlWitState.requests ∧
    getTimeUntilNextRequest cfgV1 (canMakeRequestRun cfgV1 rlWitState 64001).2 64001 ≠
      getTimeUntilNextRequest cfgV1 rlWitState 64001 :=
  ⟨reach_rlWitState, by decide, by decide⟩

/-- C5 amended: `canMakeRequest()` never changes `lastRequestTime`, and its
only effect on `requests` is discarding expired entries, so interposing it does
not alter the boolean verdict of any later `canMakeRequest()` call (at the same
or a later instant); it can, however, change what `getTimeUntilNextRequest()`
returns. -/
theorem canMakeRequest_frame (c : RLConfig) (s : RateLimiter) (t t' : Nat)
    (h : t ≤ t') :
    (canMakeRequestRun c s t).2.lastRequestTime = s.lastRequestTime ∧
    canMakeRequest c (canMakeRequestRun c s t).2 t' = canMakeRequest c s t' := by
  by_cases hsp : (t : Int) - (s.lastRequestTime : Int) < (c.minInterval : Int)
  · have hrun : canMakeRequestRun c s t = (false, s) := by
      simp [canMakeRequestRun, hsp]
    rw [hrun]
    exact ⟨rfl, rfl⟩
  · have hrun : (canMakeRequestRun c s t).2 =
        ⟨pruneReqs c t s.requests, s.lastRequestTime⟩ := by
      simp [canMakeRequestRun, hsp]
    rw [hrun]
    refine ⟨rfl, ?_⟩
    unfold canMakeRequest
    by_cases hsp' : (t' : Int) - (s.lastRequestTime : Int) < (c.minInterval : Int)
    · simp only [if_pos hsp']
    · simp only [if_neg hsp']
      unfold pruneReqs
      rw [filter_inWindow_absorb c h]

/-- Witness for the amended C5. -/
theorem canMakeRequest_frame_witness :
    (4000 : Nat) ≤ 5000 ∧
    ((canMakeRequestRun cfgV1 initRL 4000).2.lastRequestTime = initRL.lastRequestTime ∧
      canMakeRequest cfgV1 (canMakeRequestRun cfgV1 initRL 4000).2 5000 =
        canMakeRequest cfgV1 initRL 5000) :=
  ⟨by omega, canMakeRequest_frame cfgV1 initRL 4000 5000 (by omega)⟩

/-! ## Normalizer helper lemmas -/

theorem mk_ne_empty {l : List Char} (h : l ≠ []) : String.mk l ≠ "" := by
  intro he
  apply h
  have h2 := congrArg String.data he
  simpa using h2

theorem append_ne_empty_of_right {a b : String} (hb : b.length ≠ 0) : a ++ b ≠ "" := by
  intro h
  have h2 : (a ++ b).length = 0 := by rw [h]; rfl
  rw [String.length_append] at h2
  omega

theorem jsTruthy_str_ne {x : String} (h : x ≠ "") : jsTruthy (Json.str x) = true := by
  simp [jsTruthy, h]

theorem jsSubstringEllipsis_ok_ne {co : Json} {sum : String}
    (h : jsSubstringEllipsis co = Except.ok sum) : sum ≠ "" := by
  cases co <;> simp [jsSubstringEllipsis] at h
  case str s =>
    rw [← h]
    exact append_ne_empty_of_right (by decide)

theorem keywordTitle_ne (p : String) : keywordTitle p ≠ "" := by
  simp only [keywordTitle]
  repeat' split
  all_goals decide

theorem fallbackSummary_ne {text : String} (h : text ≠ "") : fallbackSummary text ≠ "" := by
  unfold fallbackSummary
  cases hs : (splitOnDot text.data).filter (fun g => decide (0 < (trimChars g).length)) with
  | cons g0 rest =>
    by_cases hl : 100 < g0.length
    · simp only [if_pos hl]
      exact append_ne_empty_of_right (by decide)
    · simp only [if_neg hl]
      exact append_ne_empty_of_right (by decide)
  | nil =>
    by_cases hl : 100 < text.length
    · simp only [if_pos hl]
      exact append_ne_empty_of_right (by decide)
    · simp only [if_neg hl]
      rw [String.append_empty]
      refine mk_ne_empty ?_
      have hd : text.data ≠ [] := by
        intro h0
        apply h
        cases text with
        | mk l =>
          simp only [String.data] at h0
          rw [h0]
      intro h1
      rcases List.take_eq_nil_iff.mp h1 with h2 | h2
      · omega
      · exact hd h2

theorem jsTruthy_ite_default {x d : Json} (hd : jsTruthy d = true) :
    jsTruthy (if jsTruthy x then x else d) = true := by
  by_cases hx : jsTruthy x
  · simpa [hx]
  · simpa [hx] using hd

theorem matchSummary_truthy (co : Json) :
    jsTruthy (match co with
      | Json.str s2 => Json.str (substring0 s2 100 ++ "...")
      | _ => Json.str "Analysis of your legal question") = true := by
  cases co with
  | str s2 => exact jsTruthy_str_ne (append_ne_empty_of_right (by decide))
  | null => rfl
  | undef => rfl
  | bool b => rfl
  | num q => rfl
  | arr xs => rfl
  | obj kvs => rfl

theorem handleParsed_ok_truthy {j : Json} {d : StructuredChatResponse}
    (h : handleParsed j = Except.ok d) :
    jsTruthy d.title = true ∧ jsTruthy d.summary = true := by
  unfold handleParsed at h
  by_cases hn : isNullish j = true
  · rw [if_pos hn] at h
    exact absurd h (by simp)
  · rw [if_neg hn] at h
    by_cases h1 : (jsTruthy (getField j "type") && jsTruthy (getField j "content") &&
        !jsTruthy (getField j "title") && !jsTruthy (getField j "summary")) = true
    · rw [if_pos h1] at h
      cases hs : jsSubstringEllipsis (getField j "content") with
      | error e =>
        rw [hs] at h
        exact absurd h (by simp)
      | ok sum =>
        rw [hs] at h
        cases h
        exact ⟨by rfl, jsTruthy_str_ne (jsSubstringEllipsis_ok_ne hs)⟩
    · rw [if_neg h1] at h
      by_cases h2 : (!jsTruthy (getField j "title") || !jsTruthy (getField j "summary") ||
          !jsTruthy (getField j "content")) = true
      · rw [if_pos h2] at h
        cases h
        exact ⟨jsTruthy_ite_default (by rfl), jsTruthy_ite_default (matchSummary_truthy _)⟩
      · rw [if_neg h2] at h
        cases h
        have h2' := h2
        simp only [Bool.or_eq_true, Bool.not_eq_true', not_or] at h2'
        obtain ⟨⟨ht, hsu⟩, hco⟩ := h2'
        exact ⟨by simpa using ht, by simpa using hsu⟩

theorem innerHandle_ok_truthy {j : Json} {d : StructuredChatResponse}
    (h : innerHandle j = Except.ok (some d)) :
    jsTruthy d.title = true ∧ jsTruthy d.summary = true := by
  unfold innerHandle at h
  by_cases hn : isNullish j = true
  · rw [if_pos hn] at h
    exact absurd h (by simp)
  · rw [if_neg hn] at h
    by_cases h1 : (jsTruthy (getField j "title") && jsTruthy (getField j "summary") &&
        jsTruthy (getField j "content")) = true
    · rw [if_pos h1] at h
      cases h
      have h1' := h1
      simp only [Bool.and_eq_true] at h1'
      exact ⟨h1'.1.1, h1'.1.2⟩
    · rw [if_neg h1] at h
      by_cases h2 : (jsTruthy (getField j "type") && jsTruthy (getField j "content")) = true
      · rw [if_pos h2] at h
        cases hs : jsSubstringEllipsis (getField j "content") with
        | error e =>
          rw [hs] at h
          exact absurd h (by simp)
        | ok sum =>
          rw [hs] at h
          cases h
          exact ⟨by rfl, jsTruthy_str_ne (jsSubstringEllipsis_ok_ne hs)⟩
      · rw [if_neg h2] at h
        exact absurd h (by simp)

theorem innerAttempt_none {text : String} (hb : braceSpan text = none) :
    innerAttempt text = Except.ok none := by
  unfold innerAttempt
  rw [hb]

theorem innerAttempt_some {text m : String} (hb : braceSpan text = some m) :
    innerAttempt text =
      match innerParse m with
      | Except.ok r => Except.ok r
      | Except.error _ => Except.ok none := by
  unfold innerAttempt
  rw [hb]

theorem innerParse_ok_some {m : String} {d : StructuredChatResponse}
    (h : innerParse m = Except.ok (some d)) :
    ∃ j, jsParse m = some j ∧ innerHandle j = Except.ok (some d) := by
  unfold innerParse at h
  cases hp : jsParse m with
  | none =>
    rw [hp] at h
    exact absurd h (by simp)
  | some j =>
    rw [hp] at h
    exact ⟨j, rfl, h⟩

theorem innerAttempt_cases (text : String) :
    innerAttempt text = Except.ok none ∨
    ∃ d, innerAttempt text = Except.ok (some d) ∧
      jsTruthy d.title = true ∧ jsTruthy d.summary = true := by
  cases hb : braceSpan text with
  | none => exact Or.inl (innerAttempt_none hb)
  | some m =>
    rw [innerAttempt_some hb]
    cases hi : innerParse m with
    | error e => exact Or.inl rfl
    | ok r =>
      cases r with
      | none => exact Or.inl rfl
      | some d =>
        obtain ⟨j, hj, hh⟩ := innerParse_ok_some hi
        obtain ⟨h1, h2⟩ := innerHandle_ok_truthy hh
        exact Or.inr ⟨d, rfl, h1, h2⟩

theorem catchBlock_of_inner_none {text prompt : String}
    (h : innerAttempt text = Except.ok none) :
    catchBlock text prompt = Except.ok (createFallbackResponse text prompt) := by
  unfold catchBlock
  rw [h]

theorem catchBlock_of_inner_some {text prompt : String} {d : StructuredChatResponse}
    (h : innerAttempt text = Except.ok (some d)) :
    catchBlock text prompt = Except.ok d := by
  unfold catchBlock
  rw [h]

theorem catchBlock_ok (text prompt : String) :
    ∃ d, catchBlock text prompt = Except.ok d ∧
      jsTruthy d.title = true ∧ (text ≠ "" → jsTruthy d.summary = true) := by
  rcases innerAttempt_cases text with h | ⟨d, h, h1, h2⟩
  · exact ⟨createFallbackResponse text prompt, catchBlock_of_inner_none h,
      jsTruthy_str_ne (keywordTitle_ne prompt),
      fun hne => jsTruthy_str_ne (fallbackSummary_ne hne)⟩
  · exact ⟨d, catchBlock_of_inner_some h, h1, fun _ => h2⟩

theorem parseAttempt_ok {text : String} {d : StructuredChatResponse}
    (h : parseAttempt text = Except.ok d) :
    ∃ j, jsParse text = some j ∧ handleParsed j = Except.ok d := by
  unfold parseAttempt at h
  cases hp : jsParse text with
  | none => rw [hp] at h; exact absurd h (by simp)
  | some j => rw [hp] at h; exact ⟨j, rfl, h⟩

theorem model_of_attempt_ok {raw prompt : String} {d : StructuredChatResponse}
    (ha : parseAttempt (pipelineText raw) = Except.ok d) :
    getStructuredChatResponseModel raw prompt = Except.ok d := by
  unfold getStructuredChatResponseModel
  rw [ha]

theorem model_of_attempt_error {raw prompt : String} {e : Unit}
    (ha : parseAttempt (pipelineText raw) = Except.error e) :
    getStructuredChatResponseModel raw prompt = catchBlock (pipelineText raw) prompt := by
  unfold getStructuredChatResponseModel
  rw [ha]

theorem parseAttempt_of_parse {text : String} {j : Json} (h : jsParse text = some j) :
    parseAttempt text = handleParsed j := by
  unfold parseAttempt
  rw [h]

theorem scanSpans_ne_nil : ∀ (f : Nat) (cs : List Char), ∀ x ∈ scanSpans f cs, x ≠ [] := by
  intro f
  induction f with
  | zero =>
    intro cs x hx
    simp [scanSpans] at hx
  | succ f ih =>
    intro cs x hx
    cases cs with
    | nil => simp [scanSpans] at hx
    | cons c cs =>
      by_cases hc : c = chLBrace
      · rw [scanSpans, if_pos hc] at hx
        cases hs : spanLoop f cs with
        | some p =>
          rw [hs] at hx
          rcases List.mem_cons.mp hx with h1 | h1
          · rw [h1]; simp
          · exact ih p.2 x h1
        | none =>
          rw [hs] at hx
          exact ih cs x hx
      · rw [scanSpans, if_neg hc] at hx
        exact ih cs x hx

theorem pipelineText_ne {raw : String} (h : cleanText raw ≠ "") : pipelineText raw ≠ "" := by
  unfold pipelineText
  cases hs : jsonSpansLast (cleanText raw) with
  | none => exact h
  | some s =>
    unfold jsonSpansLast at hs
    cases hg : (scanSpans ((cleanText raw).data.length + 1) (cleanText raw).data).getLast? with
    | none => rw [hg] at hs; simp at hs
    | some x =>
      rw [hg] at hs
      simp at hs
      have hx := List.mem_of_getLast?_eq_some hg
      have hne := scanSpans_ne_nil _ _ x hx
      rw [← hs]
      exact mk_ne_empty hne

/-! ## C2: the normalizer never throws -/

/-- C2: for every raw backend response text and every original prompt, the
response-normalization stage (strict parse, brace-span extraction, single-item
wrapping, backfill, `createFallbackResponse`) returns a
`StructuredChatResponse`; no exception escapes. -/
theorem normalizer_total (raw prompt : String) :
    ∃ d, getStructuredChatResponseModel raw prompt = Except.ok d := by
  cases ha : parseAttempt (pipelineText raw) with
  | ok d => exact ⟨d, model_of_attempt_ok ha⟩
  | error e =>
    obtain ⟨d, hd, -, -⟩ := catchBlock_ok (pipelineText raw) prompt
    exact ⟨d, (model_of_attempt_error ha).trans hd⟩

/-! ## C9: non-empty title and summary -/

/-- C9 counterexample: the empty response text reaches
`createFallbackResponse`, whose synthesized summary is the empty string — a
falsy (empty) summary escapes the normalizer. -/
theorem empty_summary_cex :
    getStructuredChatResponseModel "" "p" =
      Except.ok ⟨Json.str "Legal Information", Json.str "",
        Json.arr [Json.obj [("type", Json.str "text"), ("content", Json.str "")],
                  Json.obj [("type", Json.str "warning"), ("content", Json.str warningText)]]⟩ ∧
    jsTruthy (Json.str "") = false :=
  ⟨rfl, rfl⟩

/-- C9 amended: the normalized response always has a truthy (for strings:
non-empty) title, and a truthy summary whenever the cleaned response text is
non-empty; only the total-failure fallback on an empty cleaned text produces an
empty summary. -/
theorem title_summary_truthy (raw prompt : String) :
    ∃ d, getStructuredChatResponseModel raw prompt = Except.ok d ∧
      jsTruthy d.title = true ∧
      (cleanText raw ≠ "" → jsTruthy d.summary = true) := by
  cases ha : parseAttempt (pipelineText raw) with
  | ok d =>
    obtain ⟨j, hp, hh⟩ := parseAttempt_ok ha
    obtain ⟨ht, hsu⟩ := handleParsed_ok_truthy hh
    exact ⟨d, model_of_attempt_ok ha, ht, fun _ => hsu⟩
  | error e =>
    obtain ⟨d, hd, ht, hsu⟩ := catchBlock_ok (pipelineText raw) prompt
    exact ⟨d, (model_of_attempt_error ha).trans hd, ht,
      fun hne => hsu (pipelineText_ne hne)⟩

/-- Witness for the amended C9. -/
theorem title_summary_truthy_witness :
    ∃ d, getStructuredChatResponseModel "abc" "p" = Except.ok d ∧
      jsTruthy d.title = true ∧
      (cleanText "abc" ≠ "" → jsTruthy d.summary = true) :=
  title_summary_truthy "abc" "p"

/-! ## C6: the single-content-item wrap -/

/-- C6 counterexample: for the bare single content item with the 2-character
content "hi", the normalizer produces summary "hi..." — the ellipsis is
appended unconditionally, not only when the content exceeds 100 characters. -/
theorem singleItem_ellipsis_cex :
    getStructuredChatResponseModel "\x7b\"type\":\"text\",\"content\":\"hi\"\x7d" "p" =
      Except.ok ⟨Json.str "Legal Analysis", Json.str "hi...",
        Json.arr [Json.obj [("type", Json.str "text"), ("content", Json.str "hi")]]⟩ ∧
    ("hi..." : String) ≠ "hi" :=
  ⟨rfl, by decide⟩

/-- C6 amended: for every parsed JSON object whose `type` field is truthy and
whose `content` field is a non-empty string, with no truthy `title` or
`summary`, the normalizer yields title "Legal Analysis", content holding
exactly that item, and summary equal to the content truncated to 100
characters with "..." appended unconditionally (even when the content is not
longer than 100 characters). -/
theorem singleItem_wrap (raw prompt : String) (kvs : List (String × Json)) (s : String)
    (hparse : jsParse (pipelineText raw) = some (Json.obj kvs))
    (hty : jsTruthy (getField (Json.obj kvs) "type") = true)
    (hco : getField (Json.obj kvs) "content" = Json.str s)
    (hs : s ≠ "")
    (hti : jsTruthy (getField (Json.obj kvs) "title") = false)
    (hsu : jsTruthy (getField (Json.obj kvs) "summary") = false) :
    getStructuredChatResponseModel raw prompt =
      Except.ok ⟨Json.str "Legal Analysis", Json.str (substring0 s 100 ++ "..."),
        Json.arr [Json.obj kvs]⟩ := by
  have hcond : (jsTruthy (getField (Json.obj kvs) "type") &&
      jsTruthy (getField (Json.obj kvs) "content") &&
      !jsTruthy (getField (Json.obj kvs) "title") &&
      !jsTruthy (getField (Json.obj kvs) "summary")) = true := by
    rw [hty, hti, hsu, hco, jsTruthy_str_ne hs]
    rfl
  have hh : handleParsed (Json.obj kvs) =
      Except.ok ⟨Json.str "Legal Analysis", Json.str (substring0 s 100 ++ "..."),
        Json.arr [Json.obj kvs]⟩ := by
    unfold handleParsed
    rw [if_neg (by simp [isNullish]), if_pos hcond, hco]
    rfl
  apply model_of_attempt_ok
  rw [parseAttempt_of_parse hparse]
  exact hh

/-- Witness for the amended C6. -/
theorem singleItem_wrap_witness :
    getStructuredChatResponseModel "\x7b\"type\":\"x\",\"content\":\"hello\"\x7d" "p" =
      Except.ok ⟨Json.str "Legal Analysis", Json.str (substring0 "hello" 100 ++ "..."),
        Json.arr [Json.obj [("type", Json.str "x"), ("content", Json.str "hello")]]⟩ :=
  singleItem_wrap "\x7b\"type\":\"x\",\"content\":\"hello\"\x7d" "p"
    [("type", Json.str "x"), ("content", Json.str "hello")] "hello"
    rfl (by decide) rfl (by decide) (by decide) (by decide)

/-! ## C7: total-failure fallback -/

/-- C7 counterexample: on the unparseable input "gar**bage" the text item of
the fallback document holds the cleaned text "garbage" (the `**` markers are
stripped by the cleanup chain), not the full raw text. -/
theorem fallback_raw_text_cex :
    getStructuredChatResponseModel "gar**bage" "x" =
      Except.ok ⟨Json.str "Legal Information", Json.str "garbage.",
        Json.arr [Json.obj [("type", Json.str "text"), ("content", Json.str "garbage")],
                  Json.obj [("type", Json.str "warning"), ("content", Json.str warningText)]]⟩ ∧
    ("garbage" : String) ≠ "gar**bage" :=
  ⟨rfl, by decide⟩

/-- C7 amended: for every input on which every JSON-parse stage fails (the
span regex finds no match on the cleaned text, strict parse fails, and the
brace extraction finds no span), the result is `createFallbackResponse` on the
cleaned text: content holding exactly one `text` item with the cleaned text
(markdown and fence markers stripped, whitespace collapsed — not the raw
text) and exactly one `warning` item, the title chosen by case-insensitive
keyword match on the prompt, and the summary synthesized from the first
sentence or the first 100 characters of the cleaned text. -/
theorem fallback_on_unparseable (raw prompt : String)
    (h1 : jsonSpansLast (cleanText raw) = none)
    (h2 : jsParse (cleanText raw) = none)
    (h3 : braceSpan (cleanText raw) = none) :
    getStructuredChatResponseModel raw prompt =
      Except.ok ⟨Json.str (keywordTitle prompt),
        Json.str (fallbackSummary (cleanText raw)),
        Json.arr [Json.obj [("type", Json.str "text"),
                    ("content", Json.str (cleanText raw))],
                  Json.obj [("type", Json.str "warning"),
                    ("content", Json.str warningText)]]⟩ := by
  have htext : pipelineText raw = cleanText raw := by
    unfold pipelineText
    rw [h1]
  have ha : parseAttempt (pipelineText raw) = Except.error () := by
    unfold parseAttempt
    rw [htext, h2]
  rw [model_of_attempt_error ha, htext,
    catchBlock_of_inner_none (innerAttempt_none h3)]
  rfl

/-- Witness for the amended C7. -/
theorem fallback_on_unparseable_witness :
    getStructuredChatResponseModel "garbage" "What are my rights as a tenant?" =
      Except.ok ⟨Json.str (keywordTitle "What are my rights as a tenant?"),
        Json.str (fallbackSummary (cleanText "garbage")),
        Json.arr [Json.obj [("type", Json.str "text"),
                    ("content", Json.str (cleanText "garbage"))],
                  Json.obj [("type", Json.str "warning"),
                    ("content", Json.str warningText)]]⟩ :=
  fallback_on_unparseable "garbage" "What are my rights as a tenant?" rfl rfl rfl

/-! ## C8: identity on well-formed documents -/

/-- C8 counterexample: the syntactically valid document JSON string with title
"a**b" is corrupted by the cleanup chain (which strips `**` inside string
values) before parsing, so the normalizer is not the identity on well-formed
input. -/
theorem normalizer_not_identity_cex :
    getStructuredChatResponseModel
        "\x7b\"title\":\"a**b\",\"summary\":\"s\",\"content\":[]\x7d" "p" =
      Except.ok ⟨Json.str "ab", Json.str "s", Json.arr []⟩ ∧
    ("ab" : String) ≠ "a**b" :=
  ⟨rfl, by decide⟩

/-- C8 amended: for every document JSON string that the cleanup chain leaves
unchanged and that the span extractor returns whole (`pipelineText raw = raw`),
parsing to an object with truthy `title`, `summary` and `content`, the
normalizer returns exactly the encoded title, summary and content. -/
theorem normalizer_identity_on_clean_doc (raw prompt : String)
    (kvs : List (String × Json))
    (htext : pipelineText raw = raw)
    (hparse : jsParse raw = some (Json.obj kvs))
    (hti : jsTruthy (getField (Json.obj kvs) "title") = true)
    (hsu : jsTruthy (getField (Json.obj kvs) "summary") = true)
    (hco : jsTruthy (getField (Json.obj kvs) "content") = true) :
    getStructuredChatResponseModel raw prompt =
      Except.ok ⟨getField (Json.obj kvs) "title", getField (Json.obj kvs) "summary",
        getField (Json.obj kvs) "content"⟩ := by
  have hc1 : (jsTruthy (getField (Json.obj kvs) "type") &&
      jsTruthy (getField (Json.obj kvs) "content") &&
      !jsTruthy (getField (Json.obj kvs) "title") &&
      !jsTruthy (getField (Json.obj kvs) "summary")) = false := by
    rw [hti, hsu]
    simp
  have hc2 : (!jsTruthy (getField (Json.obj kvs) "title") ||
      !jsTruthy (getField (Json.obj kvs) "summary") ||
      !jsTruthy (getField (Json.obj kvs) "content")) = false := by
    rw [hti, hsu, hco]
    rfl
  have hh : handleParsed (Json.obj kvs) =
      Except.ok ⟨getField (Json.obj kvs) "title", getField (Json.obj kvs) "summary",
        getField (Json.obj kvs) "content"⟩ := by
    unfold handleParsed
    rw [if_neg (by simp [isNullish]), if_neg (by rw [hc1]; simp),
      if_neg (by rw [hc2]; simp)]
  apply model_of_attempt_ok
  rw [htext, parseAttempt_of_parse hparse]
  exact hh

/-- Witness for the amended C8: a full well-formed document round-trips. -/
theorem normalizer_identity_witness :
    getStructuredChatResponseModel
        "\x7b\"title\":\"T\",\"summary\":\"S\",\"content\":[\x7b\"type\":\"text\",\"content\":\"C\"\x7d]\x7d"
        "p" =
      Except.ok ⟨Json.str "T", Json.str "S",
        Json.arr [Json.obj [("type", Json.str "text"), ("content", Json.str "C")]]⟩ :=
  normalizer_identity_on_clean_doc
    "\x7b\"title\":\"T\",\"summary\":\"S\",\"content\":[\x7b\"type\":\"text\",\"content\":\"C\"\x7d]\x7d"
    "p"
    [("title", Json.str "T"), ("summary", Json.str "S"),
     ("content", Json.arr [Json.obj [("type", Json.str "text"), ("content", Json.str "C")]])]
    rfl rfl (by decide) (by decide) (by decide)

end LenisVerify
